import Mathlib

/-!
Verification of the post-training static-quantization calibration pipeline
driven by `examples/quantization/image-classification/run_image_classification.py`.

The script's own logic (argument checks, dataset-source selection, sharded
calibration loop, evaluation glue, report writing) is embedded directly from
the source.  The internals of `FuriosaAIQuantizer` (the min-max range
estimator's merge and its state machine) live outside the example script and
are modelled from the specification where indicated.
-/

namespace CalibPipeline

/-! Section: Range estimator data model -/

/-- Activation tensors are identified by name. -/
abbrev TensorName := String

/-- Per-tensor accumulated statistics: `none` before any observation, otherwise
the running (min, max) pair.  Values are modelled as integers (exact
arithmetic standing in for floats). -/
abbrev Stats := TensorName → Option (Int × Int)

/-- Modelled from the spec (§4.2): the per-tensor merge of two (min, max)
pairs used by the min-max asymmetric policy,
merge((a_min,a_max),(b_min,b_max)) = (min(a_min,b_min), max(a_max,b_max)). -/
def mergeRange (a b : Int × Int) : Int × Int := (min a.1 b.1, max a.2 b.2)

/-- Fold one observed value into a running optional (min, max) accumulator. -/
def stepMM (acc : Option (Int × Int)) (v : Int) : Option (Int × Int) :=
  match acc with
  | none => some (v, v)
  | some r => some (mergeRange r (v, v))

/-- Extend an accumulator by a list of observed values. -/
def rangeFold (acc : Option (Int × Int)) (vs : List Int) : Option (Int × Int) :=
  vs.foldl stepMM acc

/-- The activation values a fixed floating model produces on each named tensor
when run forward over one sample.  The model itself is an external
collaborator; it enters the embedding as a pure function. -/
abbrev ActModel (S : Type) := S → TensorName → List Int

/-- All values observed on tensor `t` while running the model over a shard. -/
def obsOfShard {S : Type} (model : ActModel S) (sh : List S) (t : TensorName) : List Int :=
  (sh.map (fun s => model s t)).flatten

/-- Modelled from the spec (§4.2): one `update(shard)` of the min-max
estimator extends every tensor's running (min, max) by the shard's observed
values. -/
def updateShard {S : Type} (model : ActModel S) (st : Stats) (sh : List S) : Stats :=
  fun t => rangeFold (st t) (obsOfShard model sh t)

/-- Estimator lifecycle states (spec §4.2). -/
inductive CalState
  | accumulating
  | finalized
deriving DecidableEq

/-- A state error raised on an illegal accumulator transition (spec §7). -/
inductive StateErr
  | stateError
deriving DecidableEq

/-- Modelled from the spec (§4.2): the range estimator of
`FuriosaAIQuantizer` (not part of the example script), a two-state machine
carrying the per-tensor statistics. -/
structure Estimator (S : Type) where
  model : ActModel S
  calState : CalState
  stats : Stats

/-- Modelled from the spec (§4.2): `partial_fit` (the estimator's `update`).
Returns the possible `StateError` together with the post-call estimator:
in the `Finalized` state the call fails and the estimator is untouched. -/
def partialFit {S : Type} (q : Estimator S) (sh : List S) :
    Option StateErr × Estimator S :=
  match q.calState with
  | .finalized => (some .stateError, q)
  | .accumulating => (none, { q with stats := updateShard q.model q.stats sh })

/-- Modelled from the spec (§4.2): `compute_ranges` (`finalize`): transitions
to `Finalized` and returns the TensorRange mapping. -/
def computeRanges {S : Type} (q : Estimator S) : Stats × Estimator S :=
  (q.stats, { q with calState := .finalized })

/-- A fresh estimator with empty statistics. -/
def initEstimator {S : Type} (model : ActModel S) : Estimator S :=
  { model := model, calState := .accumulating, stats := fun _ => none }

/-- The calibration loop of the script (lines 298-305): one `partial_fit` per
shard, then `compute_ranges`; returns the finalized TensorRange mapping. -/
def runCalibration {S : Type} (model : ActModel S) (shards : List (List S)) : Stats :=
  (computeRanges ((shards.foldl (fun q sh => (partialFit q sh).2) (initEstimator model)))).1

/-! Section: Basic facts about the min-max fold -/

theorem stepMM_leftComm (acc : Option (Int × Int)) (a b : Int) :
    stepMM (stepMM acc a) b = stepMM (stepMM acc b) a := by
  cases acc <;>
    simp [stepMM, mergeRange, min_comm, max_comm, min_left_comm, max_left_comm]

theorem rangeFold_append (acc : Option (Int × Int)) (u v : List Int) :
    rangeFold acc (u ++ v) = rangeFold (rangeFold acc u) v :=
  List.foldl_append stepMM acc u v

theorem rangeFold_perm {u v : List Int} (h : List.Perm u v) (acc : Option (Int × Int)) :
    rangeFold acc u = rangeFold acc v := by
  induction h generalizing acc with
  | nil => rfl
  | cons x _ ih => exact ih (stepMM acc x)
  | swap x y l =>
      show List.foldl stepMM (stepMM (stepMM acc y) x) l
        = List.foldl stepMM (stepMM (stepMM acc x) y) l
      rw [stepMM_leftComm]
  | trans _ _ ih1 ih2 => exact (ih1 acc).trans (ih2 acc)

theorem obsOfShard_append {S : Type} (model : ActModel S) (u v : List S) (t : TensorName) :
    obsOfShard model (u ++ v) t = obsOfShard model u t ++ obsOfShard model v t := by
  simp [obsOfShard]

/-- An outer permutation of a list of lists permutes its flatten. -/
theorem permFlattenOuter {α : Type} {L1 L2 : List (List α)} (h : List.Perm L1 L2) :
    List.Perm L1.flatten L2.flatten := by
  induction h with
  | nil => exact .rfl
  | cons x _ ih => simpa using ih.append_left x
  | swap x y l =>
      show List.Perm (y ++ (x ++ l.flatten)) (x ++ (y ++ l.flatten))
      rw [← List.append_assoc, ← List.append_assoc]
      exact List.perm_append_comm.append_right l.flatten
  | trans _ _ ih1 ih2 => exact ih1.trans ih2

theorem obsOfShard_perm {S : Type} (model : ActModel S) {u v : List S}
    (h : List.Perm u v) (t : TensorName) :
    List.Perm (obsOfShard model u t) (obsOfShard model v t) :=
  permFlattenOuter (h.map (fun s => model s t))

/-- The calibration loop keeps the estimator in the `Accumulating` state and
threads `updateShard` over the statistics. -/
theorem foldPartialFit {S : Type} (shards : List (List S)) (model : ActModel S) (st : Stats) :
    shards.foldl (fun q sh => (partialFit q sh).2)
        { model := model, calState := .accumulating, stats := st }
      = { model := model, calState := .accumulating,
          stats := shards.foldl (updateShard model) st : Estimator S } := by
  induction shards generalizing st with
  | nil => rfl
  | cons sh rest ih => exact ih (updateShard model st sh)

/-- Folding per-shard updates over the statistics is the same as one fold of
the min-max step over all values observed across the shards, per tensor. -/
theorem foldUpdateShard {S : Type} (shards : List (List S)) (model : ActModel S)
    (st : Stats) (t : TensorName) :
    shards.foldl (updateShard model) st t
      = rangeFold (st t) (obsOfShard model shards.flatten t) := by
  induction shards generalizing st with
  | nil => rfl
  | cons sh rest ih =>
      show rest.foldl (updateShard model) (updateShard model st sh) t
        = rangeFold (st t) (obsOfShard model ((sh :: rest).flatten) t)
      rw [ih (updateShard model st sh)]
      show rangeFold (rangeFold (st t) (obsOfShard model sh t))
            (obsOfShard model rest.flatten t)
        = rangeFold (st t) (obsOfShard model (sh ++ rest.flatten) t)
      rw [obsOfShard_append, rangeFold_append]

theorem runCalibration_eq {S : Type} (model : ActModel S) (shards : List (List S)) :
    runCalibration model shards
      = fun t => rangeFold none (obsOfShard model shards.flatten t) := by
  funext t
  unfold runCalibration initEstimator
  rw [foldPartialFit]
  exact foldUpdateShard shards model (fun _ => none) t

/-! Section: Claims C2 and C8 -/

/-- Claim C2: under the min-max policy, for a fixed calibration dataset, any
two partitions of it into K and K' shards, each processed by one update per
shard followed by finalize, yield identical per-tensor TensorRange values,
because the per-tensor merge (min of mins, max of maxes) is associative and
commutative.  Partitions are captured as lists of shards whose concatenation
is a permutation of the dataset. -/
theorem minmax_partition_independent {S : Type} (model : ActModel S) (d : List S)
    (P1 P2 : List (List S))
    (h1 : List.Perm P1.flatten d) (h2 : List.Perm P2.flatten d) :
    runCalibration model P1 = runCalibration model P2 := by
  funext t
  have e1 := congrFun (runCalibration_eq model P1) t
  have e2 := congrFun (runCalibration_eq model P2) t
  refine e1.trans (Eq.trans ?_ e2.symm)
  exact rangeFold_perm
    ((obsOfShard_perm model h1 t).trans (obsOfShard_perm model h2 t).symm) none

/-- A one-tensor activation model used to instantiate the partition
independence theorem on concrete data. -/
def modelW : ActModel Int := fun s _ => [s]

/-- Witness for claim C2 at a concrete dataset split two different ways. -/
theorem minmax_partition_independent_witness :
    List.Perm ([[1, 5], [3]] : List (List Int)).flatten [1, 5, 3]
  ∧ List.Perm ([[3], [5], [1]] : List (List Int)).flatten [1, 5, 3]
  ∧ runCalibration modelW [[1, 5], [3]] = runCalibration modelW [[3], [5], [1]] :=
  ⟨by decide, by decide,
    minmax_partition_independent modelW [1, 5, 3] [[1, 5], [3]] [[3], [5], [1]]
      (by decide) (by decide)⟩

/-- Claim C8: calling update (`partial_fit`) on the range estimator after
finalize (`compute_ranges`) fails with `StateError`, and the already-finalized
TensorRange mapping is left unmodified by the failed call. -/
theorem update_after_finalize_fails {S : Type} (q : Estimator S) (sh : List S) :
    (partialFit (computeRanges q).2 sh).1 = some StateErr.stateError
  ∧ (partialFit (computeRanges q).2 sh).2 = (computeRanges q).2
  ∧ ((partialFit (computeRanges q).2 sh).2).stats = (computeRanges q).1 :=
  ⟨rfl, rfl, rfl⟩

/-! Section: Striped sharding (`dataset.shard(num_shards, index)`, lines 298-299)

The datasets library's `shard(K, i)` with the default non-contiguous mode
selects the elements at positions `i, i + K, i + 2K, ...`, i.e. the positions
congruent to `i` modulo `K`. -/

/-- Shard `i` of `K`: the elements of `xs` whose position is `i` modulo `K`. -/
def shardStriped {α : Type} (K i : Nat) (xs : List α) : List α :=
  (xs.enum.filter (fun p => p.1 % K == i)).map Prod.snd

/-- The full partition of `xs` into `K` striped shards, in shard order. -/
def stripeShards {α : Type} (K : Nat) (xs : List α) : List (List α) :=
  (List.range K).map (fun i => shardStriped K i xs)

/-- Mapping an index that occurs once to a consed list and flattening is a
permutation of consing once to the flatten. -/
theorem flattenInsertOne {β : Type} (g : Nat → List β) (a : β) :
    ∀ (is : List Nat) (j : Nat), j ∈ is → is.Nodup →
      List.Perm ((is.map (fun i => if j == i then a :: g i else g i)).flatten)
        (a :: (is.map g).flatten) := by
  intro is
  induction is with
  | nil => intro j hmem _; cases hmem
  | cons i0 is ih =>
      intro j hmem hnd
      have hnd' : is.Nodup := (List.nodup_cons.mp hnd).2
      have hnotin : i0 ∉ is := (List.nodup_cons.mp hnd).1
      by_cases hji : j = i0
      · subst hji
        have htail : is.map (fun i => if j == i then a :: g i else g i) = is.map g := by
          refine List.map_congr_left ?_
          intro i hi
          have hne : j ≠ i := fun e => hnotin (e ▸ hi)
          have hb : (j == i) = false := beq_eq_false_iff_ne.mpr hne
          simp [hb]
        show List.Perm
          ((if j == j then a :: g j else g j)
            ++ (is.map (fun i => if j == i then a :: g i else g i)).flatten)
          (a :: (g j ++ (is.map g).flatten))
        rw [htail, beq_self_eq_true]
        simp
      · have hb : (j == i0) = false := beq_eq_false_iff_ne.mpr hji
        have hmem' : j ∈ is := by
          rcases List.mem_cons.mp hmem with h | h
          · exact absurd h hji
          · exact h
        have hrec := ih j hmem' hnd'
        show List.Perm
          ((if j == i0 then a :: g i0 else g i0)
            ++ (is.map (fun i => if j == i then a :: g i else g i)).flatten)
          (a :: (g i0 ++ (is.map g).flatten))
        rw [hb]
        simp only [Bool.false_eq_true, if_false]
        exact (hrec.append_left (g i0)).trans List.perm_middle

/-- Filtering a list by each fiber of a bounded index function and flattening
the results is a permutation of the list. -/
theorem joinFiltersPerm {β : Type} (f : β → Nat) (K : Nat) :
    ∀ (l : List β), (∀ a ∈ l, f a < K) →
      List.Perm (((List.range K).map (fun i => l.filter (fun a => f a == i))).flatten) l := by
  intro l
  induction l with
  | nil => intro _; simp
  | cons a l ih =>
      intro h
      have ha : f a < K := h a (List.mem_cons_self a l)
      have hl : ∀ b ∈ l, f b < K := fun b hb => h b (List.mem_cons_of_mem a hb)
      have hstep : (List.range K).map (fun i => (a :: l).filter (fun x => f x == i))
          = (List.range K).map
              (fun i => if f a == i then a :: l.filter (fun x => f x == i)
                        else l.filter (fun x => f x == i)) := by
        refine List.map_congr_left ?_
        intro i _
        rw [List.filter_cons]
      rw [hstep]
      have hins := flattenInsertOne (fun i => l.filter (fun x => f x == i)) a
        (List.range K) (f a) (List.mem_range.mpr ha) (List.nodup_range K)
      exact hins.trans ((ih hl).cons a)

/-- The striped shards of a list, flattened in shard order, are a permutation
of the list. -/
theorem stripeShards_flatten_perm {α : Type} (K : Nat) (xs : List α) (hK : 0 < K) :
    List.Perm ((stripeShards K xs).flatten) xs := by
  have hmaps : stripeShards K xs
      = ((List.range K).map (fun i => xs.enum.filter (fun p => p.1 % K == i))).map
          (List.map Prod.snd) := by
    rw [List.map_map]
    rfl
  rw [hmaps, ← List.map_flatten]
  have hperm := joinFiltersPerm (fun p => p.1 % K) K xs.enum
    (fun a _ => Nat.mod_lt _ hK)
  have := hperm.map (Prod.snd (α := Nat) (β := α))
  rwa [List.enum_map_snd] at this

/-! Section: Shard sizes (claim C4) -/

theorem countP_enumFrom {α : Type} (f : Nat → Bool) :
    ∀ (l : List α) (n : Nat),
      (List.enumFrom n l).countP (fun p => f p.1) = (List.range' n l.length).countP f := by
  intro l
  induction l with
  | nil => intro n; rfl
  | cons a l ih =>
      intro n
      show ((n, a) :: List.enumFrom (n + 1) l).countP (fun p => f p.1)
        = (List.range' n (l.length + 1)).countP f
      rw [List.range'_succ n l.length 1, List.countP_cons, List.countP_cons, ih (n + 1)]

theorem countRangeMod (K i : Nat) (hK : 0 < K) (hi : i < K) :
    ∀ N : Nat, (List.range N).countP (fun j => j % K == i)
      = N / K + if i < N % K then 1 else 0 := by
  intro N
  induction N with
  | zero => simp
  | succ N ihN =>
      rw [List.range_succ, List.countP_append, ihN]
      have hdm := Nat.div_add_mod N K
      have hr : N % K < K := Nat.mod_lt _ hK
      rcases Nat.lt_or_ge (N % K + 1) K with hlt | hge
      · have hsum : N % K + 1 + N / K * K = N + 1 := by
          rw [Nat.mul_comm]; omega
        have hdiv : (N + 1) / K = N / K := by
          rw [← hsum, Nat.add_mul_div_right _ _ hK, Nat.div_eq_of_lt hlt, Nat.zero_add]
        have hmod : (N + 1) % K = N % K + 1 := by
          rw [← hsum, Nat.add_mul_mod_self_right, Nat.mod_eq_of_lt hlt]
        rw [hdiv, hmod]
        simp only [List.countP_cons, List.countP_nil, beq_iff_eq]
        split_ifs <;> omega
      · have hKeq : N % K + 1 = K := by omega
        have hsum : (N / K + 1) * K = N + 1 := by
          rw [Nat.add_mul, Nat.one_mul, Nat.mul_comm]; omega
        have hdiv : (N + 1) / K = N / K + 1 := by
          rw [← hsum, Nat.mul_div_cancel _ hK]
        have hmod : (N + 1) % K = 0 := by
          rw [← hsum, Nat.mul_mod_left]
        rw [hdiv, hmod]
        simp only [List.countP_cons, List.countP_nil, beq_iff_eq]
        split_ifs <;> omega

/-- The size of striped shard `i` of `K`: every position class modulo `K`
has `N / K` members, plus one more for the first `N mod K` classes. -/
theorem shardStriped_length {α : Type} (K i : Nat) (xs : List α) (hK : 0 < K) (hi : i < K) :
    (shardStriped K i xs).length
      = xs.length / K + if i < xs.length % K then 1 else 0 := by
  unfold shardStriped
  rw [List.length_map, ← List.countP_eq_length_filter]
  have he : xs.enum.countP (fun p => p.1 % K == i)
      = (List.range' 0 xs.length).countP (fun j => j % K == i) :=
    countP_enumFrom (fun j => j % K == i) xs 0
  rw [he, ← List.range_eq_range']
  exact countRangeMod K i hK hi xs.length

/-- Claim C4: for all 1 ≤ K ≤ N, partitioning the N calibration samples into
K striped shards yields shard sizes that differ pairwise by at most 1 and sum
exactly to N, with the remainder N mod K distributed across the first
shards (shard i gets one extra element exactly when i < N mod K). -/
theorem shard_sizes {α : Type} (d : List α) (K : Nat)
    (h1 : 1 ≤ K) (_h2 : K ≤ d.length) :
    (∀ i, i < K → (shardStriped K i d).length
        = d.length / K + if i < d.length % K then 1 else 0)
  ∧ ((stripeShards K d).map List.length).sum = d.length
  ∧ (∀ i j, i < K → j < K →
      (shardStriped K i d).length ≤ (shardStriped K j d).length + 1) := by
  have hK : 0 < K := h1
  refine ⟨fun i hi => shardStriped_length K i d hK hi, ?_, ?_⟩
  · rw [← List.length_flatten]
    exact (stripeShards_flatten_perm K d hK).length_eq
  · intro i j hi hj
    rw [shardStriped_length K i d hK hi, shardStriped_length K j d hK hj]
    have hr : d.length % K < K := Nat.mod_lt _ hK
    split_ifs <;> omega

/-- Witness for claim C4 on five samples split into two shards. -/
theorem shard_sizes_witness :
    1 ≤ 2 ∧ 2 ≤ ([0, 1, 2, 3, 4] : List Nat).length
  ∧ ((∀ i, i < 2 → (shardStriped 2 i ([0, 1, 2, 3, 4] : List Nat)).length
        = ([0, 1, 2, 3, 4] : List Nat).length / 2
          + if i < ([0, 1, 2, 3, 4] : List Nat).length % 2 then 1 else 0)
    ∧ ((stripeShards 2 ([0, 1, 2, 3, 4] : List Nat)).map List.length).sum
        = ([0, 1, 2, 3, 4] : List Nat).length
    ∧ (∀ i j, i < 2 → j < 2 →
        (shardStriped 2 i ([0, 1, 2, 3, 4] : List Nat)).length
          ≤ (shardStriped 2 j ([0, 1, 2, 3, 4] : List Nat)).length + 1)) :=
  ⟨by decide, by decide, shard_sizes [0, 1, 2, 3, 4] 2 (by decide) (by decide)⟩

/-! Section: Calibration sampler (lines 265-269) -/

/-- A linear congruential step driving the modelled seeded permutation. -/
def lcgNext (s : Nat) : Nat := (s * 1103515245 + 12345) % 2147483648

/-- Fuel-indexed Fisher-Yates selection: repeatedly extract the element at a
seed-determined position. -/
def shuffleAux {α : Type} : Nat → Nat → List α → List α
  | _, 0, _ => []
  | _, _ + 1, [] => []
  | s, fuel + 1, a :: l =>
      let i := s % (a :: l).length
      match (a :: l)[i]? with
      | none => []
      | some x => x :: shuffleAux (lcgNext s) fuel ((a :: l).eraseIdx i)

/-- Modelled from the spec (§4.1): the seeded random permutation supplied to
the sampler by the external datasets library's `shuffle(seed=...)`, as a
deterministic function of the seed and the dataset. -/
def shuffleSeeded {α : Type} (seed : Nat) (l : List α) : List α :=
  shuffleAux seed l.length l

/-- The Calibration Sampler (lines 265-269 and 298-299): a seeded shuffle,
truncation to the first N samples, and partition into K striped shards. -/
def calibrationSampler {α : Type} (seed : Nat) (d : List α) (N K : Nat) :
    List α × List (List α) :=
  let sel := (shuffleSeeded seed d).take N
  (sel, stripeShards K sel)

/-- Claim C3: for every fixed seed, dataset, and sample count N, two runs of
the Calibration Sampler select the same N samples (via the seeded shuffle
followed by taking the first N) and produce the same partition into K
shards. -/
theorem sampler_deterministic {α : Type} (seed1 seed2 : Nat) (d1 d2 : List α)
    (N1 N2 K1 K2 : Nat)
    (hs : seed1 = seed2) (hd : d1 = d2) (hN : N1 = N2) (hK : K1 = K2) :
    calibrationSampler seed1 d1 N1 K1 = calibrationSampler seed2 d2 N2 K2 := by
  subst hs; subst hd; subst hN; subst hK; rfl

/-- Witness for claim C3 on a concrete seed and dataset. -/
theorem sampler_deterministic_witness :
    (7 : Nat) = 7 ∧ ([10, 20, 30] : List Nat) = [10, 20, 30]
  ∧ (2 : Nat) = 2 ∧ (2 : Nat) = 2
  ∧ calibrationSampler 7 ([10, 20, 30] : List Nat) 2 2
      = calibrationSampler 7 [10, 20, 30] 2 2 :=
  ⟨rfl, rfl, rfl, rfl,
    sampler_deterministic 7 7 [10, 20, 30] [10, 20, 30] 2 2 2 2 rfl rfl rfl rfl⟩

/-! Section: Calibration configuration dispatch (lines 282-289) -/

/-- The calibration configuration chosen before any shard is processed. -/
inductive CalibConfig
  | percentileAsym (p : Rat)
  | minMaxAsym
deriving DecidableEq

/-- Lines 282-289: `percentiles_asym` when the method string is exactly
"percentile_asym", otherwise `minmax_asym`. -/
def makeCalibrationConfig (method : String) (percentile : Rat) : CalibConfig :=
  if method = "percentile_asym" then .percentileAsym percentile
  else .minMaxAsym

/-- Claim C9: for every calibration-method string other than the exact
"percentile_asym" — including unrecognized values such as "entropy" or
misspellings — the pipeline silently constructs the min-max asymmetric
configuration; no error is ever raised for an unrecognized method. -/
theorem calib_method_fallback (method : String) (percentile : Rat)
    (h : method ≠ "percentile_asym") :
    makeCalibrationConfig method percentile = CalibConfig.minMaxAsym := by
  unfold makeCalibrationConfig
  rw [if_neg h]

/-- Witness for claim C9 at the unrecognized method "entropy". -/
theorem calib_method_fallback_witness :
    ("entropy" : String) ≠ "percentile_asym"
  ∧ makeCalibrationConfig "entropy" 99 = CalibConfig.minMaxAsym :=
  ⟨by decide, calib_method_fallback "entropy" 99 (by decide)⟩

/-! Section: JSON report writing (lines 344-346) -/

/-- Order on report entries by metric name, mirroring sort_keys=True. -/
def keyLE (a b : String × Int) : Prop := a.1 ≤ b.1

/-- Strict key order, used to show the sorted form is unique. -/
def keyLT (a b : String × Int) : Prop := a.1 < b.1

instance : DecidableRel keyLE := fun a b => inferInstanceAs (Decidable (a.1 ≤ b.1))

instance : IsTotal (String × Int) keyLE := ⟨fun a b => le_total a.1 b.1⟩

instance : IsTrans (String × Int) keyLE := ⟨fun _ _ _ h1 h2 => le_trans h1 h2⟩

instance : IsAntisymm (String × Int) keyLT :=
  ⟨fun _ _ h1 h2 => absurd (lt_trans h1 h2) (lt_irrefl _)⟩

/-- Report entries sorted by metric name (json.dump's sort_keys=True). -/
def sortEntries (kvs : List (String × Int)) : List (String × Int) :=
  List.insertionSort keyLE kvs

/-- A JSON string literal. -/
def quoteJson (s : String) : String := "\"" ++ s ++ "\""

/-- One report line at json.dump's fixed indent of 4 spaces. -/
def renderEntry (kv : String × Int) : String :=
  "    " ++ quoteJson kv.1 ++ ": " ++ toString kv.2

/-- The metrics report text: `json.dump(metrics, f, indent=4, sort_keys=True)`
with metric values modelled as integers. -/
def jsonDumpSorted (kvs : List (String × Int)) : String :=
  "\x7b\n" ++ String.intercalate ",\n" ((sortEntries kvs).map renderEntry) ++ "\n\x7d"

theorem sortEntries_pairwise_lt (kvs : List (String × Int))
    (hn : (kvs.map Prod.fst).Nodup) : (sortEntries kvs).Pairwise keyLT := by
  have hs : (sortEntries kvs).Pairwise keyLE := List.sorted_insertionSort keyLE kvs
  have hperm : List.Perm (sortEntries kvs) kvs := List.perm_insertionSort keyLE kvs
  have hn' : ((sortEntries kvs).map Prod.fst).Nodup :=
    ((hperm.map Prod.fst).nodup_iff).mpr hn
  have hpw : (sortEntries kvs).Pairwise (fun a b => a.1 ≠ b.1) := by
    rw [List.Nodup, List.pairwise_map] at hn'
    exact hn'
  exact (hs.and hpw).imp (fun h => lt_of_le_of_ne h.1 h.2)

theorem sortEntries_perm_eq {kvs1 kvs2 : List (String × Int)}
    (hp : List.Perm kvs1 kvs2) (hn : (kvs1.map Prod.fst).Nodup) :
    sortEntries kvs1 = sortEntries kvs2 := by
  have hn2 : (kvs2.map Prod.fst).Nodup := ((hp.map Prod.fst).nodup_iff).mp hn
  have hpp : List.Perm (sortEntries kvs1) (sortEntries kvs2) :=
    (List.perm_insertionSort keyLE kvs1).trans
      (hp.trans (List.perm_insertionSort keyLE kvs2).symm)
  exact List.eq_of_perm_of_sorted hpp
    (sortEntries_pairwise_lt kvs1 hn) (sortEntries_pairwise_lt kvs2 hn2)

/-- Claim C7: the metrics report is written as JSON with sorted keys and
fixed indentation, so two runs producing equal metric dictionaries (the same
key-value pairs, in any insertion order, with distinct keys) write
byte-identical reports. -/
theorem report_bytes_deterministic (kvs1 kvs2 : List (String × Int))
    (hp : List.Perm kvs1 kvs2) (hn : (kvs1.map Prod.fst).Nodup) :
    jsonDumpSorted kvs1 = jsonDumpSorted kvs2 := by
  unfold jsonDumpSorted
  rw [sortEntries_perm_eq hp hn]

/-- Witness for claim C7 on the same metric dictionary built in two insertion
orders. -/
theorem report_bytes_deterministic_witness :
    List.Perm [("top5", (9 : Int)), ("accuracy", 8)] [("accuracy", (8 : Int)), ("top5", 9)]
  ∧ ([("top5", (9 : Int)), ("accuracy", 8)].map Prod.fst).Nodup
  ∧ jsonDumpSorted [("top5", 9), ("accuracy", 8)]
      = jsonDumpSorted [("accuracy", 8), ("top5", 9)] :=
  ⟨by decide, by decide,
    report_bytes_deterministic [("top5", 9), ("accuracy", 8)]
      [("accuracy", 8), ("top5", 9)] (by decide) (by decide)⟩

/-! Section: Evaluation setup (lines 314-346) -/

/-- The evaluation environment: whether `align_labels_with_mapping` succeeds
(it raises on a model/dataset label mismatch), the two label mappings named
by the warning, the evaluation data before and after alignment, and the
evaluation loop (an external collaborator returning the metric dictionary). -/
structure EvalSetup (S : Type) where
  alignOk : Bool
  label2id : List (String × Nat)
  labelFeatures : List String
  validationData : List S
  alignedData : List S
  runLoop : List S → List (String × Int)

/-- What the evaluation section produces: an optional label-mismatch warning
carrying both mappings, and the written report text. -/
structure EvalOutcome where
  labelWarning : Option (List (String × Nat) × List String)
  reportText : Option String
deriving DecidableEq

/-- Lines 323-346: try label alignment; on failure log a warning naming the
model label mapping and the dataset label features and continue with the
unaligned data; run the evaluation loop; write the sorted JSON report. -/
def evalPhase {S : Type} (e : EvalSetup S) : EvalOutcome :=
  let chosen := if e.alignOk then e.alignedData else e.validationData
  { labelWarning := if e.alignOk then none else some (e.label2id, e.labelFeatures)
    reportText := some (jsonDumpSorted (e.runLoop chosen)) }

/-- Claim C6: a label-mapping mismatch during evaluation setup is surfaced as
a non-fatal warning naming both mappings; the run does not abort and the
evaluation loop still executes and produces a metrics report. -/
theorem label_mismatch_nonfatal {S : Type} (e : EvalSetup S) (h : e.alignOk = false) :
    (evalPhase e).labelWarning = some (e.label2id, e.labelFeatures)
  ∧ (evalPhase e).reportText = some (jsonDumpSorted (e.runLoop e.validationData)) := by
  unfold evalPhase
  rw [h]
  exact ⟨rfl, rfl⟩

/-- A concrete evaluation environment whose label alignment fails. -/
def evalSetupW : EvalSetup Nat :=
  { alignOk := false
    label2id := [("cat", 0), ("dog", 1)]
    labelFeatures := ["dog", "cat"]
    validationData := [1, 2]
    alignedData := []
    runLoop := fun _ => [("accuracy", 1)] }

/-- Witness for claim C6 at a concrete failing alignment. -/
theorem label_mismatch_nonfatal_witness :
    evalSetupW.alignOk = false
  ∧ ((evalPhase evalSetupW).labelWarning
        = some (evalSetupW.label2id, evalSetupW.labelFeatures)
    ∧ (evalPhase evalSetupW).reportText
        = some (jsonDumpSorted (evalSetupW.runLoop evalSetupW.validationData))) :=
  ⟨rfl, label_mismatch_nonfatal evalSetupW rfl⟩

/-! Section: The script's control flow (`main`, lines 153-346)

The pipeline is embedded as a pure function from the parsed arguments and an
environment of external collaborators (dataset loading, folder contents) to
the trace of completed effects and the final outcome.  All `ValueError`s the
script raises are configuration errors in the spec's taxonomy; a missing
dataset split surfaces as the interpreter's key error. -/

/-- The configuration surface of the script that the claims consult.
`outputDirNonempty` records whether the existing output directory has any
entries; the script never consults it (the check at line 181 only tests
`os.path.isdir`). -/
structure Args where
  outputDirIsDir : Bool
  outputDirNonempty : Bool
  overwriteOutputDir : Bool
  datasetName : Option String
  trainDir : Option String
  validationDir : Option String
  seed : Nat
  numCalibrationSamples : Option Nat
  numCalibrationShards : Nat
  calibrationMethod : String
  calibrationPercentile : Rat
  doEval : Bool

/-- External collaborators of the script: the dataset hub and the folder
contents behind `train_dir`/`validation_dir`. -/
structure PipeEnv (S : Type) where
  hubLoad : String → List (String × List S)
  trainFolder : List S
  validationFolder : List S

/-- Errors the run can abort with: the script's `ValueError`s (configuration
errors) and the interpreter's key/index errors on missing splits or
out-of-range selection. -/
inductive PErr
  | configErr
  | keyErr (split : String)
  | indexErr
deriving DecidableEq

/-- Effects of the run, in the order the script performs them. -/
inductive Step
  | loadData
  | exportModel
  | preprocessData
  | partialFitStep (i : Nat)
  | computeRangesStep
  | quantizeStep
  | evalStep
  | writeReportStep
deriving DecidableEq

/-- Lines 195-209: the loaded dataset's splits.  A hub dataset provides
whatever splits it has; the imagefolder build has a split per provided
directory. -/
def loadedSplits {S : Type} (env : PipeEnv S) (args : Args) : List (String × List S) :=
  match args.datasetName with
  | some n => env.hubLoad n
  | none =>
      (match args.trainDir with
        | some _ => [("train", env.trainFolder)]
        | none => []) ++
      (match args.validationDir with
        | some _ => [("validation", env.validationFolder)]
        | none => [])

/-- Lines 265-269: dereference the `train` split, then shuffle with the run
seed and select the first `num_calibration_samples` samples. -/
def selectedCalib {S : Type} (env : PipeEnv S) (args : Args) : Except PErr (List S) :=
  match List.lookup "train" (loadedSplits env args) with
  | none => .error (.keyErr "train")
  | some tr =>
      match args.numCalibrationSamples with
      | none => .ok tr
      | some n =>
          if n ≤ tr.length then .ok ((shuffleSeeded args.seed tr).take n)
          else .error .indexErr

/-- The control flow of `main`: the checks, loads, export, preprocessing,
calibration loop, quantization and evaluation, in source order, returning the
trace of completed effects and the outcome. -/
def mainPipeline {S : Type} (env : PipeEnv S) (args : Args) :
    List Step × Except PErr Unit :=
  if args.outputDirIsDir && !args.overwriteOutputDir then
    ([], .error .configErr)
  else if args.datasetName.isNone && args.trainDir.isNone && args.validationDir.isNone then
    ([], .error .configErr)
  else
    match List.lookup "validation" (loadedSplits env args) with
    | none => ([Step.loadData], .error (.keyErr "validation"))
    | some _ =>
        match selectedCalib env args with
        | .error e => ([Step.loadData, Step.exportModel], .error e)
        | .ok calib =>
            let K := args.numCalibrationShards
            let tr := [Step.loadData, Step.exportModel, Step.preprocessData]
            let _cfg := makeCalibrationConfig args.calibrationMethod args.calibrationPercentile
            if !(1 ≤ K && K ≤ calib.length) then
              (tr, .error .configErr)
            else
              let tr2 := tr ++ (List.range K).map Step.partialFitStep
                ++ [Step.computeRangesStep, Step.quantizeStep]
              if args.doEval then
                (tr2 ++ [Step.evalStep, Step.writeReportStep], .ok ())
              else
                (tr2, .ok ())

instance {ε α : Type} [DecidableEq ε] [DecidableEq α] : DecidableEq (Except ε α)
  | .error e1, .error e2 =>
      if h : e1 = e2 then .isTrue (by rw [h])
      else .isFalse (by intro hc; cases hc; exact h rfl)
  | .error _, .ok _ => .isFalse (by intro hc; cases hc)
  | .ok _, .error _ => .isFalse (by intro hc; cases hc)
  | .ok a1, .ok a2 =>
      if h : a1 = a2 then .isTrue (by rw [h])
      else .isFalse (by intro hc; cases hc; exact h rfl)

/-- A concrete external environment: a hub dataset with train and validation
splits, and folder contents for directory-based loading. -/
def envW : PipeEnv Nat :=
  { hubLoad := fun _ => [("train", [0, 1, 2]), ("validation", [7])]
    trainFolder := [3, 4]
    validationFolder := [5, 6] }

/-- A run requesting zero calibration shards, with everything else valid. -/
def argsBadShards : Args :=
  { outputDirIsDir := false
    outputDirNonempty := false
    overwriteOutputDir := false
    datasetName := some "beans"
    trainDir := none
    validationDir := none
    seed := 42
    numCalibrationSamples := none
    numCalibrationShards := 0
    calibrationMethod := "minmax_asym"
    calibrationPercentile := 99
    doEval := false }

/-- Counterexample to claim C1 as stated: with shard count K = 0 the run does
fail with a configuration error, but the model export and the preprocessing
have already been performed when the failure is raised. -/
theorem invalid_shards_cx :
    (mainPipeline envW argsBadShards).2 = .error .configErr
  ∧ Step.exportModel ∈ (mainPipeline envW argsBadShards).1
  ∧ Step.preprocessData ∈ (mainPipeline envW argsBadShards).1 := by
  decide

/-- Claim C1 as amended: for every run that reaches the shard-count check
(line 291) with K = 0 or K > N, the pipeline fails with a configuration
error and produces no calibration state — no partial_fit, no range
computation, no quantization — but model export and preprocessing have
already occurred before the failure. -/
theorem invalid_shards_amended {S : Type} (env : PipeEnv S) (args : Args) (calib : List S)
    (h1 : (args.outputDirIsDir && !args.overwriteOutputDir) = false)
    (h2 : (args.datasetName.isNone && args.trainDir.isNone
            && args.validationDir.isNone) = false)
    (h3 : (List.lookup "validation" (loadedSplits env args)).isSome)
    (h4 : selectedCalib env args = .ok calib)
    (h5 : args.numCalibrationShards = 0 ∨ calib.length < args.numCalibrationShards) :
    mainPipeline env args
      = ([Step.loadData, Step.exportModel, Step.preprocessData], .error .configErr) := by
  obtain ⟨v, hv⟩ := Option.isSome_iff_exists.mp h3
  have hcond : (decide (1 ≤ args.numCalibrationShards)
      && decide (args.numCalibrationShards ≤ calib.length)) = false := by
    rcases h5 with h | h
    · have hx : ¬ (1 ≤ args.numCalibrationShards) := by omega
      simp [hx]
    · have hx : ¬ (args.numCalibrationShards ≤ calib.length) := by omega
      simp [hx]
  simp only [mainPipeline, h1, h2, hv, h4, hcond, Bool.false_eq_true, if_false,
    Bool.not_false, if_true]

/-- Witness for amended claim C1 at the concrete zero-shard run. -/
theorem invalid_shards_amended_witness :
    ((argsBadShards.outputDirIsDir && !argsBadShards.overwriteOutputDir) = false)
  ∧ ((argsBadShards.datasetName.isNone && argsBadShards.trainDir.isNone
        && argsBadShards.validationDir.isNone) = false)
  ∧ (List.lookup "validation" (loadedSplits envW argsBadShards)).isSome = true
  ∧ selectedCalib envW argsBadShards = .ok [0, 1, 2]
  ∧ (argsBadShards.numCalibrationShards = 0
      ∨ ([0, 1, 2] : List Nat).length < argsBadShards.numCalibrationShards)
  ∧ mainPipeline envW argsBadShards
      = ([Step.loadData, Step.exportModel, Step.preprocessData], .error .configErr) :=
  ⟨by decide, by decide, by decide, by decide, Or.inl rfl,
    invalid_shards_amended envW argsBadShards [0, 1, 2]
      (by decide) (by decide) (by decide) (by decide) (Or.inl rfl)⟩

/-- A run whose output directory exists but is empty, without the overwrite
flag; everything else is valid. -/
def argsEmptyDir : Args :=
  { outputDirIsDir := true
    outputDirNonempty := false
    overwriteOutputDir := false
    datasetName := some "beans"
    trainDir := none
    validationDir := none
    seed := 42
    numCalibrationSamples := none
    numCalibrationShards := 1
    calibrationMethod := "minmax_asym"
    calibrationPercentile := 99
    doEval := false }

/-- Claim C5 is violated by the code: the check at line 181 only tests
`os.path.isdir` and never consults emptiness, even though its own error
message says "already exists and is not empty"; an existing empty output
directory without the overwrite flag aborts the run with the configuration
error all the same. -/
theorem empty_outdir_still_fails :
    argsEmptyDir.outputDirIsDir = true
  ∧ argsEmptyDir.outputDirNonempty = false
  ∧ argsEmptyDir.overwriteOutputDir = false
  ∧ mainPipeline envW argsEmptyDir = ([], .error .configErr) := by
  decide

/-- Claim C10: the missing-dataset-source check (lines 188-189) fails only
when the dataset name, training directory and validation directory are all
absent; supplying only a validation directory passes the check, and the run
instead fails later — after dataset loading and model export — when line 265
dereferences the absent train split. -/
theorem validation_only_fails_late {S : Type} (env : PipeEnv S) (args : Args) (v : String)
    (h1 : (args.outputDirIsDir && !args.overwriteOutputDir) = false)
    (h2 : args.datasetName = none)
    (h3 : args.trainDir = none)
    (h4 : args.validationDir = some v) :
    mainPipeline env args
      = ([Step.loadData, Step.exportModel], .error (.keyErr "train")) := by
  have hsplits : loadedSplits env args = [("validation", env.validationFolder)] := by
    simp [loadedSplits, h2, h3, h4]
  have hlookupv : List.lookup "validation" (loadedSplits env args)
      = some env.validationFolder := by
    rw [hsplits]
    rfl
  have hlookupt : List.lookup "train" (loadedSplits env args) = none := by
    rw [hsplits]
    rfl
  have hsel : selectedCalib env args = .error (.keyErr "train") := by
    unfold selectedCalib
    rw [hlookupt]
  simp only [mainPipeline, h1, h2, h3, h4, hlookupv, hsel, Option.isNone_none,
    Option.isNone_some, Bool.false_eq_true, if_false, Bool.true_and, Bool.and_false,
    Bool.false_and]

/-- A run configured with only a validation directory. -/
def argsValOnly : Args :=
  { outputDirIsDir := false
    outputDirNonempty := false
    overwriteOutputDir := false
    datasetName := none
    trainDir := none
    validationDir := some "data/val"
    seed := 42
    numCalibrationSamples := none
    numCalibrationShards := 1
    calibrationMethod := "minmax_asym"
    calibrationPercentile := 99
    doEval := false }

/-- Witness for claim C10 at the concrete validation-only run. -/
theorem validation_only_fails_late_witness :
    ((argsValOnly.outputDirIsDir && !argsValOnly.overwriteOutputDir) = false)
  ∧ argsValOnly.datasetName = none
  ∧ argsValOnly.trainDir = none
  ∧ argsValOnly.validationDir = some "data/val"
  ∧ mainPipeline envW argsValOnly
      = ([Step.loadData, Step.exportModel], .error (.keyErr "train")) :=
  ⟨by decide, rfl, rfl, rfl,
    validation_only_fails_late envW argsValOnly "data/val" (by decide) rfl rfl rfl⟩

end CalibPipeline
